import Mathlib

/-!
Verification of the attendance-backend service (Express + MongoDB/in-memory
fallback).  The embedding models the in-memory fallback backend of
`database.js` together with the route handlers of `routes.js`, as pure
functions over an explicit `FallbackStorage` state.  Requests are modelled
sequentially (one at a time), matching the claims' "no interleaving" framing.
-/

namespace AttendanceBackend

/-! ## ASCII models of the JS string builtins used by the code -/

/-- Whitespace test used by the model of `String.prototype.trim` (ASCII
whitespace: space, tab, line feed, vertical tab, form feed, carriage return). -/
def isWsChar (c : Char) : Bool :=
  c.toNat == 32 || c.toNat == 9 || c.toNat == 10 ||
  c.toNat == 11 || c.toNat == 12 || c.toNat == 13

/-- Model of `String.prototype.toLowerCase` on a single character (ASCII
range: uppercase letters are code points 65..90 and map 32 code points up). -/
def charLower (c : Char) : Char :=
  if 65 ≤ c.toNat ∧ c.toNat ≤ 90 then Char.ofNat (c.toNat + 32) else c

/-- Model of `String.prototype.toLowerCase` (ASCII semantics). -/
def jsToLower (s : String) : String := ⟨s.data.map charLower⟩

/-- Drop leading and trailing whitespace from a character list. -/
def trimChars (l : List Char) : List Char :=
  ((l.dropWhile isWsChar).reverse.dropWhile isWsChar).reverse

/-- Model of `String.prototype.trim`. -/
def jsTrim (s : String) : String := ⟨trimChars s.data⟩

/-- Character class `[^\s@]` of the email regex in `routes.js`. -/
def isAddrChar (c : Char) : Bool := !isWsChar c && !(c.toNat == 64)

/-- Model of the test of the email regex in `routes.js`,
written there as a slash-delimited literal: caret, `[^\s@]+`, at-sign,
`[^\s@]+`, a literal dot, `[^\s@]+`, dollar.  A string matches iff it splits
as `a@b.c` with `a`, `b`, `c` nonempty and free of whitespace and at-signs
(the at-sign at position `i`, the dot at position `j`). -/
def emailRegexMatch (s : String) : Bool :=
  let cs := s.data
  let n := cs.length
  (List.range n).any fun i =>
    (List.range n).any fun j =>
      decide (0 < i) && decide (i + 1 < j) && decide (j + 1 < n) &&
      ((cs.getD i (Char.ofNat 0)).toNat == 64) &&
      ((cs.getD j (Char.ofNat 0)).toNat == 46) &&
      (cs.take i).all isAddrChar &&
      ((cs.drop (i + 1)).take (j - i - 1)).all isAddrChar &&
      (cs.drop (j + 1)).all isAddrChar

/-! ## Data model (`members`, `attendance_sessions`, `attendance_records`) -/

/-- A member document.  `first_scan_date` is absent (`none`) until the
member's first scan; timestamps are abstract `Nat` clock values. -/
structure Member where
  id : String
  name : String
  email : String
  phone : String
  address : String
  created_at : Nat
  first_scan_date : Option Nat
deriving Repr, DecidableEq

/-- A session document (`attendance_sessions`).  `is_active` is the numeric
flag the code stores (`1` active, `0` inactive). -/
structure Session where
  id : String
  session_name : String
  session_date : String
  qr_data : String
  is_active : Nat
  created_at : Nat
deriving Repr, DecidableEq

/-- An attendance record document.  `marked_manually` is absent (`none`) for
records created by the scan route and `some true` for manual marking. -/
structure AttendanceRecord where
  id : String
  session_id : String
  member_id : String
  is_first_time : Bool
  scan_time : Nat
  is_present : Bool
  marked_manually : Option Bool
deriving Repr, DecidableEq

/-! ## Model of the JS `Map` (insertion-ordered; `set` replaces in place) -/

/-- `Map.prototype.get`. -/
def mapGet {α : Type} (m : List (String × α)) (k : String) : Option α :=
  (m.find? (fun p => p.1 == k)).map Prod.snd

/-- `Map.prototype.set`: replaces the value in place when the key is present,
otherwise appends the new entry at the end (insertion order). -/
def mapSet {α : Type} (m : List (String × α)) (k : String) (v : α) :
    List (String × α) :=
  if m.any (fun p => p.1 == k) then
    m.map (fun p => if p.1 == k then (k, v) else p)
  else m ++ [(k, v)]

/-- `Map.prototype.delete` (the effect on the map). -/
def mapDelete {α : Type} (m : List (String × α)) (k : String) :
    List (String × α) :=
  m.filter (fun p => !(p.1 == k))

/-- `Map.prototype.values` as a list, in insertion order. -/
def mapValues {α : Type} (m : List (String × α)) : List α := m.map Prod.snd

/-- The in-memory fallback storage of `database.js` (the
`usingFallback = true` branch of every helper). -/
structure FallbackStorage where
  members : List (String × Member)
  sessions : List (String × Session)
  attendance : List (String × AttendanceRecord)
  activeSessionId : Option String
deriving Repr, DecidableEq

/-- The empty fallback store. -/
def FallbackStorage.init : FallbackStorage := ⟨[], [], [], none⟩

/-! ## `database.js` helper functions, fallback branch -/

/-- `getMembers`: all member documents. -/
def getMembers (st : FallbackStorage) : List Member := mapValues st.members

/-- `checkEmailExists(email)`: normalizes the argument with trim/toLowerCase
and scans the member map comparing each stored email lower-cased. -/
def checkEmailExists (st : FallbackStorage) (email : String) : Bool :=
  let normalizedEmail := jsToLower (jsTrim email)
  (mapValues st.members).any fun member => jsToLower member.email == normalizedEmail

/-- The duplicate-key error (`error.code = 11000`) thrown by `addMember`. -/
inductive DbError
  | duplicateKey
deriving Repr, DecidableEq

/-- `addMember(memberData)`: re-normalizes the email, throws the
duplicate-key error when `checkEmailExists` holds, otherwise stores the
member (with normalized email) under its id. -/
def addMember (st : FallbackStorage) (memberData : Member) :
    Except DbError (FallbackStorage × Member) :=
  let normalizedEmail := jsToLower (jsTrim memberData.email)
  if checkEmailExists st normalizedEmail then
    .error .duplicateKey
  else
    let normalizedMemberData := { memberData with email := normalizedEmail }
    .ok ({ st with members := mapSet st.members normalizedMemberData.id normalizedMemberData },
         normalizedMemberData)

/-- The member document `addMember` actually stores: the input with its
email re-normalized (used to state the `addMember` success lemma). -/
def normalizeMember (memberData : Member) : Member :=
  { memberData with email := jsToLower (jsTrim memberData.email) }

/-- `deleteMember(memberId)`: deletes the map entry, returning the deleted
count (`1` when the key was present, else `0`). -/
def deleteMember (st : FallbackStorage) (memberId : String) :
    FallbackStorage × Nat :=
  if (mapGet st.members memberId).isSome then
    ({ st with members := mapDelete st.members memberId }, 1)
  else (st, 0)

/-- `createSession(sessionData)`: sets `is_active := 0` on every stored
session, stores the new session under its id, and records it as the active
session id. -/
def createSession (st : FallbackStorage) (sessionData : Session) :
    FallbackStorage × Session :=
  let deactivated := st.sessions.map fun p => (p.1, { p.2 with is_active := 0 })
  ({ st with
      sessions := mapSet deactivated sessionData.id sessionData,
      activeSessionId := some sessionData.id },
   sessionData)

/-- `getActiveSession()`: looks up `activeSessionId` and returns the session
only when its `is_active` flag is `1`. -/
def getActiveSession (st : FallbackStorage) : Option Session :=
  match st.activeSessionId with
  | some sid =>
    match mapGet st.sessions sid with
    | some session => if session.is_active == 1 then some session else none
    | none => none
  | none => none

/-- `getSession(sessionId)`: returns the session only when it exists and its
`is_active` flag is `1`. -/
def getSession (st : FallbackStorage) (sessionId : String) : Option Session :=
  match mapGet st.sessions sessionId with
  | some session => if session.is_active == 1 then some session else none
  | none => none

/-- `getMember(memberId)`. -/
def getMember (st : FallbackStorage) (memberId : String) : Option Member :=
  mapGet st.members memberId

/-- The compound key string of the fallback attendance map,
built in `database.js` as the template literal sessionId, hyphen, memberId. -/
def attendanceKey (sessionId memberId : String) : String :=
  sessionId ++ "-" ++ memberId

/-- `getAttendanceRecord(sessionId, memberId)`: single lookup at the
concatenated key. -/
def getAttendanceRecord (st : FallbackStorage) (sessionId memberId : String) :
    Option AttendanceRecord :=
  mapGet st.attendance (attendanceKey sessionId memberId)

/-- `countMemberAttendance(memberId)`: the loop over all attendance values
incrementing a counter on matching `member_id`. -/
def countMemberAttendance (st : FallbackStorage) (memberId : String) : Nat :=
  (mapValues st.attendance).foldl
    (fun count record => if record.member_id == memberId then count + 1 else count) 0

/-- `updateMemberFirstScan(memberId)`: sets `first_scan_date` to the current
time only when the member exists and the field is not already set. -/
def updateMemberFirstScan (st : FallbackStorage) (memberId : String) (now : Nat) :
    FallbackStorage :=
  match mapGet st.members memberId with
  | some member =>
    if member.first_scan_date = none then
      { st with members :=
          mapSet st.members memberId { member with first_scan_date := some now } }
    else st
  | none => st

/-- `addAttendanceRecord(recordData)`: stores the record at the concatenated
key derived from the record's own session and member ids. -/
def addAttendanceRecord (st : FallbackStorage) (recordData : AttendanceRecord) :
    FallbackStorage × AttendanceRecord :=
  let key := attendanceKey recordData.session_id recordData.member_id
  ({ st with attendance := mapSet st.attendance key recordData }, recordData)

/-! ## `routes.js` handlers, fallback path.  Absent request fields are
modelled as the empty string (the falsy case of the validation checks);
generated ids and the current time are explicit parameters. -/

/-- Error responses of `POST /api/members`. -/
inductive RegisterError
  | missingFields
  | invalidEmail
  | emailExists
deriving Repr, DecidableEq

/-- `POST /api/members`: validation, trim/lower-case normalization, the email
regex test, the `checkEmailExists` pre-check, then `addMember` (whose
duplicate-key error the catch block also maps to the EMAIL_EXISTS response). -/
def registerMember (st : FallbackStorage) (name email phone address : String)
    (newId : String) (now : Nat) : Except RegisterError (FallbackStorage × Member) :=
  if name == "" || email == "" then .error .missingFields
  else
    let cleanName := jsTrim name
    let cleanEmail := jsToLower (jsTrim email)
    let cleanPhone := if phone == "" then "" else jsTrim phone
    let cleanAddress := if address == "" then "" else jsTrim address
    if !emailRegexMatch cleanEmail then .error .invalidEmail
    else if checkEmailExists st cleanEmail then .error .emailExists
    else
      let newMember : Member := ⟨newId, cleanName, cleanEmail, cleanPhone, cleanAddress, now, none⟩
      match addMember st newMember with
      | .error .duplicateKey => .error .emailExists
      | .ok (st', stored) => .ok (st', stored)

/-- Error response of `POST /api/sessions`. -/
inductive CreateSessionError
  | missingName
deriving Repr, DecidableEq

/-- `POST /api/sessions`: builds the session document (`is_active = 1`,
scan URL from base address and fresh id) and calls `createSession`. -/
def createSessionApi (st : FallbackStorage) (sessionName : String)
    (newId dateStr baseUrl : String) (now : Nat) :
    Except CreateSessionError (FallbackStorage × Session) :=
  if sessionName == "" then .error .missingName
  else
    let qrData := baseUrl ++ "/scan/" ++ newId
    let newSession : Session := ⟨newId, sessionName, dateStr, qrData, 1, now⟩
    .ok (createSession st newSession)

/-- Error responses of `POST /api/attendance` and `POST /api/attendance/manual`. -/
inductive MarkError
  | missingIds
  | sessionNotActive
  | memberNotFound
  | alreadyMarked
deriving Repr, DecidableEq

/-- The success payload of the attendance routes. -/
structure MarkResult where
  message : String
  isFirstTime : Bool
  recordId : String
deriving Repr, DecidableEq

/-- `POST /api/attendance`: resolve active session, resolve member, reject a
pre-existing record for the pair, compute `isFirstTime` from the prior count,
conditionally set the member first-scan timestamp, insert the record. -/
def markAttendance (st : FallbackStorage) (sessionId memberId : String)
    (newRecordId : String) (now : Nat) :
    Except MarkError (FallbackStorage × MarkResult) :=
  if sessionId == "" || memberId == "" then .error .missingIds
  else
    match getSession st sessionId with
    | none => .error .sessionNotActive
    | some _ =>
      match getMember st memberId with
      | none => .error .memberNotFound
      | some member =>
        match getAttendanceRecord st sessionId memberId with
        | some _ => .error .alreadyMarked
        | none =>
          let attendanceCount := countMemberAttendance st memberId
          let isFirstTime := attendanceCount == 0
          let st1 := if isFirstTime then updateMemberFirstScan st memberId now else st
          let attendanceRecord : AttendanceRecord :=
            ⟨newRecordId, sessionId, memberId, isFirstTime, now, true, none⟩
          let st2 := (addAttendanceRecord st1 attendanceRecord).1
          let message := if isFirstTime
            then "Welcome " ++ member.name ++ "! First time attendance recorded."
            else "Attendance marked for " ++ member.name ++ "!"
          .ok (st2, ⟨message, isFirstTime, attendanceRecord.id⟩)

/-- `POST /api/attendance/manual`: same flow but the session is the active
one and the record carries `marked_manually: true`. -/
def markAttendanceManual (st : FallbackStorage) (memberId : String)
    (newRecordId : String) (now : Nat) :
    Except MarkError (FallbackStorage × MarkResult) :=
  if memberId == "" then .error .missingIds
  else
    match getActiveSession st with
    | none => .error .sessionNotActive
    | some activeSession =>
      match getMember st memberId with
      | none => .error .memberNotFound
      | some member =>
        match getAttendanceRecord st activeSession.id memberId with
        | some _ => .error .alreadyMarked
        | none =>
          let attendanceCount := countMemberAttendance st memberId
          let isFirstTime := attendanceCount == 0
          let st1 := if isFirstTime then updateMemberFirstScan st memberId now else st
          let attendanceRecord : AttendanceRecord :=
            ⟨newRecordId, activeSession.id, memberId, isFirstTime, now, true, some true⟩
          let st2 := (addAttendanceRecord st1 attendanceRecord).1
          .ok (st2, ⟨member.name ++ " marked present manually!", isFirstTime, attendanceRecord.id⟩)

/-- One row of the `GET /api/attendance/current` response. -/
structure ReportEntry where
  id : String
  name : String
  email : String
  phone : String
  is_present : Bool
  scan_time : Nat
  is_first_time : Bool
  marked_manually : Bool
deriving Repr, DecidableEq

/-- The member/record projection of the current-attendance route
(`marked_manually || false` turns the absent field into `false`). -/
def reportEntryOf (record : AttendanceRecord) (member : Member) : ReportEntry :=
  ⟨member.id, member.name, member.email, member.phone, record.is_present,
   record.scan_time, record.is_first_time, record.marked_manually.getD false⟩

/-- Comparator of the fallback branch of the current-attendance route:
sort by `scan_time` descending (a before b when its scan time is at least b's). -/
def scanTimeDesc (a b : ReportEntry) : Bool := b.scan_time ≤ a.scan_time

/-- `GET /api/attendance/current`, fallback branch: empty when no session is
active, otherwise the records of the active session whose member id resolves,
projected and sorted by scan time descending. -/
def currentAttendanceReport (st : FallbackStorage) : List ReportEntry :=
  match getActiveSession st with
  | none => []
  | some activeSession =>
    let attendance := (mapValues st.attendance).filterMap fun record =>
      if record.session_id == activeSession.id then
        (mapGet st.members record.member_id).map (reportEntryOf record)
      else none
    attendance.mergeSort scanTimeDesc

/-- The `GET /api/sessions/:sessionId/stats` response. -/
structure SessionStats where
  total_present : Nat
  first_time_count : Nat
  total_members : Nat
deriving Repr, DecidableEq

/-- `GET /api/sessions/:sessionId/stats`, fallback branch: the loop over all
attendance values incrementing `totalPresent` on a session match and
`firstTimeCount` additionally on `is_first_time`, plus the member map size. -/
def sessionStatistics (st : FallbackStorage) (sessionId : String) : SessionStats :=
  let counts := (mapValues st.attendance).foldl
    (fun acc record =>
      if record.session_id == sessionId then
        (acc.1 + 1, if record.is_first_time then acc.2 + 1 else acc.2)
      else acc)
    (0, 0)
  ⟨counts.1, counts.2, st.members.length⟩

/-! ## Sequential request traces -/

/-- One state-mutating request. -/
inductive Op
  | register (name email phone address newId : String) (now : Nat)
  | remove (memberId : String)
  | newSession (sessionName newId dateStr baseUrl : String) (now : Nat)
  | mark (sessionId memberId newRecordId : String) (now : Nat)
  | manual (memberId newRecordId : String) (now : Nat)
deriving Repr, DecidableEq

/-- The state after handling one request (error responses leave the store as
the handler left it, which for every handler is unchanged). -/
def applyOp (st : FallbackStorage) (op : Op) : FallbackStorage :=
  match op with
  | .register name email phone address newId now =>
    match registerMember st name email phone address newId now with
    | .ok (st', _) => st'
    | .error _ => st
  | .remove memberId => (deleteMember st memberId).1
  | .newSession sessionName newId dateStr baseUrl now =>
    match createSessionApi st sessionName newId dateStr baseUrl now with
    | .ok (st', _) => st'
    | .error _ => st
  | .mark sessionId memberId newRecordId now =>
    match markAttendance st sessionId memberId newRecordId now with
    | .ok (st', _) => st'
    | .error _ => st
  | .manual memberId newRecordId now =>
    match markAttendanceManual st memberId newRecordId now with
    | .ok (st', _) => st'
    | .error _ => st

/-- The state after a sequence of requests. -/
def runOps (st : FallbackStorage) (ops : List Op) : FallbackStorage :=
  ops.foldl applyOp st

/-- Number of attendance records stored for one (session, member) pair. -/
def pairRecordCount (st : FallbackStorage) (sessionId memberId : String) : Nat :=
  ((mapValues st.attendance).filter
    (fun record => record.session_id == sessionId && record.member_id == memberId)).length

/-- Store invariant: every attendance map entry sits at the key derived from
its own session and member ids (true of every state the code can build,
since all inserts go through `addAttendanceRecord`). -/
def WellKeyedAttendance (st : FallbackStorage) : Prop :=
  ∀ p ∈ st.attendance, p.1 = attendanceKey p.2.session_id p.2.member_id

/-- Store invariant: every member map entry sits at the key equal to the
member's own `id` field (true of every state the code can build, since all
inserts go through `addMember`). -/
def WellKeyedMembers (st : FallbackStorage) : Prop :=
  ∀ p ∈ st.members, p.2.id = p.1

/-! ## Concrete states for example runs -/

/-- A registered member, as stored by the code. -/
def adaMember : Member := ⟨"m1", "Ada", "ada@x.com", "", "", 0, none⟩

/-- An active session, as stored by the code. -/
def sundaySession : Session := ⟨"s1", "Sunday Service", "2026-10-12", "http://h/scan/s1", 1, 1⟩

/-- A store with one member and one active session, no attendance yet. -/
def exampleBase : FallbackStorage :=
  ⟨[("m1", adaMember)], [("s1", sundaySession)], [], some "s1"⟩

/-- `exampleBase` after `markAttendance("s1", "m1")` at time 2 with record id
`"r1"` (the member got a first-scan timestamp and the record was stored). -/
def exampleMarked : FallbackStorage :=
  ⟨[("m1", ⟨"m1", "Ada", "ada@x.com", "", "", 0, some 2⟩)],
   [("s1", sundaySession)],
   [("s1-m1", ⟨"r1", "s1", "m1", true, 2, true, none⟩)],
   some "s1"⟩

/-- `exampleMarked` after creating a second session `"s2"` (which deactivates
`"s1"`) and marking `"m1"` again in `"s2"` at time 6 with record id `"r2"`. -/
def exampleSecondMarked : FallbackStorage :=
  ⟨[("m1", ⟨"m1", "Ada", "ada@x.com", "", "", 0, some 2⟩)],
   [("s1", ⟨"s1", "Sunday Service", "2026-10-12", "http://h/scan/s1", 0, 1⟩),
    ("s2", ⟨"s2", "Evening Service", "2026-10-12", "http://h/scan/s2", 1, 5⟩)],
   [("s1-m1", ⟨"r1", "s1", "m1", true, 2, true, none⟩),
    ("s2-m1", ⟨"r2", "s2", "m1", false, 6, true, none⟩)],
   some "s2"⟩

/-- The store after registering Ada Lovelace on the empty store. -/
def adaRegistered : FallbackStorage :=
  ⟨[("m1", ⟨"m1", "Ada Lovelace", "ada@x.com", "", "", 0, none⟩)], [], [], none⟩

/-- A store with two members both marked present in the active session. -/
def exampleTwoMembers : FallbackStorage :=
  ⟨[("m1", ⟨"m1", "Ada", "ada@x.com", "", "", 0, some 2⟩),
    ("m2", ⟨"m2", "Bob", "bob@x.com", "", "", 0, some 3⟩)],
   [("s1", sundaySession)],
   [("s1-m1", ⟨"r1", "s1", "m1", true, 2, true, none⟩),
    ("s1-m2", ⟨"r2", "s1", "m2", true, 3, true, none⟩)],
   some "s1"⟩

/-! ## Lemmas about the `Map` model -/

theorem mapGet_eq_none_iff {α : Type} {m : List (String × α)} {k : String} :
    mapGet m k = none ↔ ∀ p ∈ m, ¬(p.1 = k) := by
  simp [mapGet, List.find?_eq_none]

theorem mapGet_some_elim {α : Type} {m : List (String × α)} {k : String} {v : α}
    (h : mapGet m k = some v) : ∃ p ∈ m, p.1 = k ∧ p.2 = v := by
  simp only [mapGet, Option.map_eq_some'] at h
  obtain ⟨q, hq, rfl⟩ := h
  refine ⟨q, List.mem_of_find?_eq_some hq, ?_, rfl⟩
  have := List.find?_some hq
  simpa using this

theorem any_key_eq_false_of_get_none {α : Type} {m : List (String × α)} {k : String}
    (h : mapGet m k = none) : m.any (fun p => p.1 == k) = false := by
  rw [mapGet_eq_none_iff] at h
  simp only [List.any_eq_false, beq_iff_eq]
  exact h

theorem mapSet_of_get_none {α : Type} {m : List (String × α)} {k : String} (v : α)
    (h : mapGet m k = none) : mapSet m k v = m ++ [(k, v)] := by
  unfold mapSet
  rw [any_key_eq_false_of_get_none h]
  simp

theorem mapGet_append_right {α : Type} {m l : List (String × α)} {k : String}
    (h : mapGet m k = none) : mapGet (m ++ l) k = mapGet l k := by
  have hf : List.find? (fun p => p.1 == k) m = none := by
    simpa only [mapGet, Option.map_eq_none'] using h
  simp [mapGet, List.find?_append, hf]

theorem find?_replace_self {α : Type} (m : List (String × α)) (k : String) (v : α)
    (hmem : m.any (fun p => p.1 == k) = true) :
    List.find? (fun p => p.1 == k) (m.map fun p => if p.1 == k then (k, v) else p) =
      some (k, v) := by
  induction m with
  | nil => simp at hmem
  | cons q t ih =>
    by_cases hq : (q.1 == k) = true
    · rw [List.map_cons, if_pos hq,
        List.find?_cons_of_pos (p := fun r : String × α => r.1 == k) _ (by simp)]
    · rw [List.map_cons, if_neg (by simp [hq]),
        List.find?_cons_of_neg (p := fun r : String × α => r.1 == k) _ hq]
      refine ih ?_
      rcases List.any_eq_true.mp hmem with ⟨p, hp, hpk⟩
      rcases List.mem_cons.mp hp with rfl | hp'
      · exact absurd hpk hq
      · exact List.any_eq_true.mpr ⟨p, hp', hpk⟩

theorem find?_replace_ne {α : Type} (m : List (String × α)) (k k' : String) (v : α)
    (h : k' ≠ k) :
    List.find? (fun p => p.1 == k') (m.map fun p => if p.1 == k then (k, v) else p) =
      List.find? (fun p => p.1 == k') m := by
  induction m with
  | nil => rfl
  | cons q t ih =>
    by_cases hq : (q.1 == k) = true
    · have hq' : q.1 = k := by simpa using hq
      have hk : ((k : String) == k') = false := by
        simp only [beq_eq_false_iff_ne, ne_eq]
        exact fun hh => h hh.symm
      rw [List.map_cons, if_pos hq,
        List.find?_cons_of_neg (p := fun r : String × α => r.1 == k') _ (by simp [hk]),
        List.find?_cons_of_neg (p := fun r : String × α => r.1 == k') _ (by simp [hq', hk])]
      exact ih
    · rw [List.map_cons, if_neg (by simp [hq])]
      by_cases hq' : (q.1 == k') = true
      · rw [List.find?_cons_of_pos (p := fun r : String × α => r.1 == k') _ hq',
          List.find?_cons_of_pos (p := fun r : String × α => r.1 == k') _ hq']
      · rw [List.find?_cons_of_neg (p := fun r : String × α => r.1 == k') _ hq',
          List.find?_cons_of_neg (p := fun r : String × α => r.1 == k') _ hq']
        exact ih

theorem mapGet_mapSet_self {α : Type} (m : List (String × α)) (k : String) (v : α) :
    mapGet (mapSet m k v) k = some v := by
  unfold mapSet
  split
  next hmem =>
    simp only [mapGet, find?_replace_self m k v hmem, Option.map_some']
  next hmem =>
    have hnone : mapGet m k = none := by
      rw [mapGet_eq_none_iff]
      intro p hp
      have := List.any_eq_false.mp (Bool.not_eq_true _ ▸ hmem) p hp
      simpa using this
    rw [mapGet_append_right hnone]
    simp [mapGet]

theorem mapGet_mapSet_ne {α : Type} (m : List (String × α)) (k k' : String) (v : α)
    (h : k' ≠ k) : mapGet (mapSet m k v) k' = mapGet m k' := by
  unfold mapSet
  split
  next hmem =>
    simp only [mapGet, find?_replace_ne m k k' v h]
  next hmem =>
    simp only [mapGet, List.find?_append]
    have hone : List.find? (fun p => p.1 == k') [(k, v)] = none := by
      have hk : ((k : String) == k') = false := by
        simp only [beq_eq_false_iff_ne, ne_eq]
        exact fun hh => h hh.symm
      rw [List.find?_cons_of_neg (p := fun r : String × α => r.1 == k') _ (by simp [hk]),
        List.find?_nil]
    rw [hone]
    rcases hf : List.find? (fun p => p.1 == k') m with _ | q <;> simp

theorem length_mapSet_of_any {α : Type} (m : List (String × α)) (k : String) (v : α)
    (h : m.any (fun p => p.1 == k) = true) : (mapSet m k v).length = m.length := by
  unfold mapSet
  rw [if_pos h, List.length_map]

theorem mapValues_append {α : Type} (m l : List (String × α)) :
    mapValues (m ++ l) = mapValues m ++ mapValues l := by
  simp [mapValues]

theorem mapGet_mapDelete_self {α : Type} (m : List (String × α)) (k : String) :
    mapGet (mapDelete m k) k = none := by
  rw [mapGet_eq_none_iff]
  intro p hp
  have := (List.mem_filter.mp hp).2
  simpa using this

theorem mem_of_mem_mapDelete {α : Type} {m : List (String × α)} {k : String} {p}
    (h : p ∈ mapDelete m k) : p ∈ m :=
  (List.mem_filter.mp h).1

/-! ## Lemmas about the counting loops -/

theorem foldl_count_eq {β : Type} (p : β → Bool) (l : List β) (n : Nat) :
    l.foldl (fun count record => if p record then count + 1 else count) n =
      n + (l.filter p).length := by
  induction l generalizing n with
  | nil => simp
  | cons a t ih =>
    by_cases ha : p a
    · simp [List.foldl_cons, ha, ih, Nat.add_assoc, Nat.add_comm 1]
    · simp [List.foldl_cons, ha, ih]

theorem countMemberAttendance_eq_filter (st : FallbackStorage) (memberId : String) :
    countMemberAttendance st memberId =
      ((mapValues st.attendance).filter (fun r => r.member_id == memberId)).length := by
  unfold countMemberAttendance
  rw [foldl_count_eq]
  simp

theorem foldl_pair_count_eq {β : Type} (q b : β → Bool) (l : List β) (n1 n2 : Nat) :
    l.foldl (fun acc record =>
        if q record then (acc.1 + 1, if b record then acc.2 + 1 else acc.2) else acc)
      (n1, n2) =
      (n1 + (l.filter q).length, n2 + (l.filter (fun r => q r && b r)).length) := by
  induction l generalizing n1 n2 with
  | nil => simp
  | cons a t ih =>
    by_cases ha : q a
    · by_cases hb : b a
      · simp [List.foldl_cons, ha, hb, ih, Nat.add_assoc, Nat.add_comm 1]
      · simp [List.foldl_cons, ha, hb, ih, Nat.add_assoc, Nat.add_comm 1]
    · simp [List.foldl_cons, ha, ih]

/-! ## Lemmas about the string normalization (trim and toLowerCase) -/

theorem toNat_charOfNat_of_lt {n : Nat} (h : n < 55296) : (Char.ofNat n).toNat = n := by
  have hv : n.isValidChar := Or.inl h
  simp only [Char.ofNat, dif_pos hv]
  simp [Char.ofNatAux, Char.toNat, UInt32.toNat, BitVec.toNat_ofNatLt]

theorem charLower_charLower (c : Char) : charLower (charLower c) = charLower c := by
  unfold charLower
  by_cases h : 65 ≤ c.toNat ∧ c.toNat ≤ 90
  · rw [if_pos h]
    have ht : (Char.ofNat (c.toNat + 32)).toNat = c.toNat + 32 :=
      toNat_charOfNat_of_lt (by omega)
    rw [if_neg (by omega)]
  · rw [if_neg h, if_neg h]

theorem isWsChar_charLower (c : Char) : isWsChar (charLower c) = isWsChar c := by
  unfold charLower
  by_cases h : 65 ≤ c.toNat ∧ c.toNat ≤ 90
  · rw [if_pos h]
    have ht : (Char.ofNat (c.toNat + 32)).toNat = c.toNat + 32 :=
      toNat_charOfNat_of_lt (by omega)
    unfold isWsChar
    rw [ht]
    have h1 : ∀ a b : Nat, a ≠ b → (a == b) = false := by
      intro a b hab
      simpa using hab
    rw [h1 _ _ (by omega), h1 _ _ (by omega), h1 _ _ (by omega),
      h1 _ _ (by omega), h1 _ _ (by omega), h1 _ _ (by omega),
      h1 _ _ (by omega), h1 _ _ (by omega), h1 _ _ (by omega),
      h1 _ _ (by omega), h1 _ _ (by omega), h1 _ _ (by omega)]
  · rw [if_neg h]

theorem jsToLower_jsToLower (s : String) : jsToLower (jsToLower s) = jsToLower s := by
  simp only [jsToLower, List.map_map]
  congr 1
  apply List.map_congr_left
  intro c _
  exact charLower_charLower c

theorem dropWhile_length_le {α : Type} (p : α → Bool) (l : List α) :
    (l.dropWhile p).length ≤ l.length := by
  induction l with
  | nil => simp
  | cons b t ih =>
    rw [List.dropWhile_cons]
    by_cases hb : p b
    · rw [if_pos hb]
      simp only [List.length_cons]
      omega
    · rw [if_neg hb]

theorem dropWhile_dropWhile {α : Type} (p : α → Bool) (l : List α) :
    (l.dropWhile p).dropWhile p = l.dropWhile p := by
  induction l with
  | nil => rfl
  | cons a t ih =>
    by_cases ha : p a
    · rw [List.dropWhile_cons, if_pos ha, ih]
    · have hcons : List.dropWhile p (a :: t) = a :: t := by
        rw [List.dropWhile_cons, if_neg (by simpa using ha)]
      rw [hcons, hcons]

theorem dropWhile_eq_self_of_decomp {α : Type} (p : α → Bool) (x y s : List α)
    (hx : x.dropWhile p = x) (hxy : x = y ++ s) : y.dropWhile p = y := by
  cases y with
  | nil => rfl
  | cons a y' =>
    have hpa : p a = false := by
      cases hval : p a with
      | false => rfl
      | true =>
        exfalso
        have hx' : List.dropWhile p (y' ++ s) = a :: (y' ++ s) := by
          have hthis := hx
          rw [hxy] at hthis
          simpa [List.dropWhile_cons, hval] using hthis
        have hle := dropWhile_length_le p (y' ++ s)
        rw [hx'] at hle
        simp only [List.length_cons] at hle
        omega
    rw [List.dropWhile_cons, if_neg (by simp [hpa])]

theorem trimChars_front_clean (l : List Char) :
    (trimChars l).dropWhile isWsChar = trimChars l := by
  unfold trimChars
  set A := l.dropWhile isWsChar with hA
  have hAclean : A.dropWhile isWsChar = A := dropWhile_dropWhile isWsChar l
  have hdecomp : A = (A.reverse.dropWhile isWsChar).reverse ++
      (A.reverse.takeWhile isWsChar).reverse := by
    have := List.takeWhile_append_dropWhile isWsChar A.reverse
    calc A = A.reverse.reverse := by rw [List.reverse_reverse]
    _ = (A.reverse.takeWhile isWsChar ++ A.reverse.dropWhile isWsChar).reverse := by rw [this]
    _ = (A.reverse.dropWhile isWsChar).reverse ++ (A.reverse.takeWhile isWsChar).reverse := by
        rw [List.reverse_append]
  exact dropWhile_eq_self_of_decomp isWsChar A _ _ hAclean hdecomp

theorem trimChars_trimChars (l : List Char) :
    trimChars (trimChars l) = trimChars l := by
  have h1 : (trimChars l).dropWhile isWsChar = trimChars l := trimChars_front_clean l
  show ((((trimChars l).dropWhile isWsChar).reverse.dropWhile isWsChar)).reverse = trimChars l
  rw [h1]
  have h2 : (trimChars l).reverse.dropWhile isWsChar = (trimChars l).reverse := by
    unfold trimChars
    rw [List.reverse_reverse]
    exact dropWhile_dropWhile isWsChar _
  rw [h2, List.reverse_reverse]

theorem trimChars_map_charLower (l : List Char) :
    trimChars (l.map charLower) = (trimChars l).map charLower := by
  have hcomp : (isWsChar ∘ charLower) = isWsChar := by
    funext c
    exact isWsChar_charLower c
  unfold trimChars
  rw [List.dropWhile_map, hcomp, ← List.map_reverse, List.dropWhile_map, hcomp,
    ← List.map_reverse]

theorem jsTrim_jsToLower_comm (s : String) :
    jsTrim (jsToLower s) = jsToLower (jsTrim s) := by
  simp only [jsTrim, jsToLower]
  rw [trimChars_map_charLower]

theorem jsTrim_jsTrim (s : String) : jsTrim (jsTrim s) = jsTrim s := by
  simp only [jsTrim]
  rw [trimChars_trimChars]

/-- The composite normalization `email.trim().toLowerCase()` is idempotent:
normalizing an already-normalized email is the identity. -/
theorem normalize_normalize (s : String) :
    jsToLower (jsTrim (jsToLower (jsTrim s))) = jsToLower (jsTrim s) := by
  rw [jsTrim_jsToLower_comm, jsToLower_jsToLower, jsTrim_jsTrim]

/-! ## Inversion lemmas for the route handlers -/

theorem updateMemberFirstScan_sessions (st : FallbackStorage) (mid : String) (now : Nat) :
    (updateMemberFirstScan st mid now).sessions = st.sessions := by
  unfold updateMemberFirstScan
  split
  · split <;> rfl
  · rfl

theorem updateMemberFirstScan_attendance (st : FallbackStorage) (mid : String) (now : Nat) :
    (updateMemberFirstScan st mid now).attendance = st.attendance := by
  unfold updateMemberFirstScan
  split
  · split <;> rfl
  · rfl

theorem updateMemberFirstScan_activeSessionId (st : FallbackStorage) (mid : String) (now : Nat) :
    (updateMemberFirstScan st mid now).activeSessionId = st.activeSessionId := by
  unfold updateMemberFirstScan
  split
  · split <;> rfl
  · rfl

theorem checkEmailExists_normalize (st : FallbackStorage) (x : String) :
    checkEmailExists st (jsToLower (jsTrim x)) = checkEmailExists st x := by
  unfold checkEmailExists
  rw [normalize_normalize]

theorem markAttendance_ok_elim {st : FallbackStorage} {sessionId memberId newRecordId : String}
    {now : Nat} {st' : FallbackStorage} {r : MarkResult}
    (h : markAttendance st sessionId memberId newRecordId now = .ok (st', r)) :
    ∃ session member,
      sessionId ≠ "" ∧ memberId ≠ "" ∧
      getSession st sessionId = some session ∧
      getMember st memberId = some member ∧
      getAttendanceRecord st sessionId memberId = none ∧
      r.isFirstTime = (countMemberAttendance st memberId == 0) ∧
      r.recordId = newRecordId ∧
      st'.members = (if countMemberAttendance st memberId == 0
                     then updateMemberFirstScan st memberId now else st).members ∧
      st'.sessions = st.sessions ∧
      st'.activeSessionId = st.activeSessionId ∧
      st'.attendance = st.attendance ++
        [(attendanceKey sessionId memberId,
          ⟨newRecordId, sessionId, memberId, countMemberAttendance st memberId == 0,
           now, true, none⟩)] := by
  unfold markAttendance at h
  split at h
  next hids => simp at h
  next hids =>
    have hids' : ¬(sessionId = "" ∨ memberId = "") := by
      simpa [Bool.or_eq_true, beq_iff_eq] using hids
    push_neg at hids'
    split at h
    next => simp at h
    next session hsess =>
      split at h
      next => simp at h
      next member hmem =>
        split at h
        next rec hrec => simp at h
        next hrec =>
          simp only [Except.ok.injEq, Prod.mk.injEq] at h
          obtain ⟨hst, hr⟩ := h
          refine ⟨session, member, hids'.1, hids'.2, hsess, hmem, hrec, ?_, ?_, ?_, ?_, ?_, ?_⟩
          · rw [← hr]
          · rw [← hr]
          · rw [← hst]
            exact rfl
          · rw [← hst]
            show (if countMemberAttendance st memberId == 0
                  then updateMemberFirstScan st memberId now else st).sessions = st.sessions
            split
            · exact updateMemberFirstScan_sessions st memberId now
            · rfl
          · rw [← hst]
            show (if countMemberAttendance st memberId == 0
                  then updateMemberFirstScan st memberId now else st).activeSessionId =
              st.activeSessionId
            split
            · exact updateMemberFirstScan_activeSessionId st memberId now
            · rfl
          · rw [← hst]
            have hkey : mapGet st.attendance (attendanceKey sessionId memberId) = none := hrec
            show mapSet (if countMemberAttendance st memberId == 0
                  then updateMemberFirstScan st memberId now else st).attendance _ _ = _
            split
            · rw [updateMemberFirstScan_attendance, mapSet_of_get_none _ hkey]
            · rw [mapSet_of_get_none _ hkey]

theorem markAttendanceManual_ok_elim {st : FallbackStorage} {memberId newRecordId : String}
    {now : Nat} {st' : FallbackStorage} {r : MarkResult}
    (h : markAttendanceManual st memberId newRecordId now = .ok (st', r)) :
    ∃ activeSession member,
      memberId ≠ "" ∧
      getActiveSession st = some activeSession ∧
      getMember st memberId = some member ∧
      getAttendanceRecord st activeSession.id memberId = none ∧
      r.isFirstTime = (countMemberAttendance st memberId == 0) ∧
      st'.sessions = st.sessions ∧
      st'.activeSessionId = st.activeSessionId ∧
      st'.attendance = st.attendance ++
        [(attendanceKey activeSession.id memberId,
          ⟨newRecordId, activeSession.id, memberId, countMemberAttendance st memberId == 0,
           now, true, some true⟩)] := by
  unfold markAttendanceManual at h
  split at h
  next hid => simp at h
  next hid =>
    have hid' : memberId ≠ "" := by simpa [beq_iff_eq] using hid
    split at h
    next => simp at h
    next activeSession hact =>
      split at h
      next => simp at h
      next member hmem =>
        split at h
        next rec hrec => simp at h
        next hrec =>
          simp only [Except.ok.injEq, Prod.mk.injEq] at h
          obtain ⟨hst, hr⟩ := h
          refine ⟨activeSession, member, hid', hact, hmem, hrec, ?_, ?_, ?_, ?_⟩
          · rw [← hr]
          · rw [← hst]
            show (if countMemberAttendance st memberId == 0
                  then updateMemberFirstScan st memberId now else st).sessions = st.sessions
            split
            · exact updateMemberFirstScan_sessions st memberId now
            · rfl
          · rw [← hst]
            show (if countMemberAttendance st memberId == 0
                  then updateMemberFirstScan st memberId now else st).activeSessionId =
              st.activeSessionId
            split
            · exact updateMemberFirstScan_activeSessionId st memberId now
            · rfl
          · rw [← hst]
            have hkey : mapGet st.attendance (attendanceKey activeSession.id memberId) = none := hrec
            show mapSet (if countMemberAttendance st memberId == 0
                  then updateMemberFirstScan st memberId now else st).attendance _ _ = _
            split
            · rw [updateMemberFirstScan_attendance, mapSet_of_get_none _ hkey]
            · rw [mapSet_of_get_none _ hkey]

theorem addMember_ok_of_not_exists (st : FallbackStorage) (memberData : Member)
    (hchk : checkEmailExists st memberData.email = false) :
    addMember st memberData = .ok
      ({ st with members := mapSet st.members memberData.id (normalizeMember memberData) },
       normalizeMember memberData) := by
  unfold addMember normalizeMember
  have hc : checkEmailExists st (jsToLower (jsTrim memberData.email)) = false := by
    rw [checkEmailExists_normalize]
    exact hchk
  rw [if_neg (by simp [hc])]

theorem registerMember_ok_elim {st : FallbackStorage} {name email phone address newId : String}
    {now : Nat} {st' : FallbackStorage} {m : Member}
    (h : registerMember st name email phone address newId now = .ok (st', m)) :
    name ≠ "" ∧ email ≠ "" ∧
    emailRegexMatch (jsToLower (jsTrim email)) = true ∧
    checkEmailExists st (jsToLower (jsTrim email)) = false ∧
    m = ⟨newId, jsTrim name, jsToLower (jsTrim email),
         if phone == "" then "" else jsTrim phone,
         if address == "" then "" else jsTrim address, now, none⟩ ∧
    st'.members = mapSet st.members newId m ∧
    st'.sessions = st.sessions ∧
    st'.attendance = st.attendance ∧
    st'.activeSessionId = st.activeSessionId := by
  unfold registerMember at h
  by_cases hids : (name == "" || email == "") = true
  · rw [if_pos hids] at h
    simp at h
  · rw [if_neg hids] at h
    have hids' : ¬(name = "" ∨ email = "") := by
      simpa [Bool.or_eq_true, beq_iff_eq] using hids
    push_neg at hids'
    by_cases hreg : (!emailRegexMatch (jsToLower (jsTrim email))) = true
    · rw [if_pos hreg] at h
      simp at h
    · rw [if_neg hreg] at h
      have hreg' : emailRegexMatch (jsToLower (jsTrim email)) = true := by
        simpa using hreg
      by_cases hchk : checkEmailExists st (jsToLower (jsTrim email)) = true
      · rw [if_pos hchk] at h
        simp at h
      · rw [if_neg hchk] at h
        have hchk' : checkEmailExists st (jsToLower (jsTrim email)) = false := by
          simpa using hchk
        have hadd := addMember_ok_of_not_exists st
          ⟨newId, jsTrim name, jsToLower (jsTrim email),
           if phone == "" then "" else jsTrim phone,
           if address == "" then "" else jsTrim address, now, none⟩ hchk'
        have hnm : normalizeMember
            (⟨newId, jsTrim name, jsToLower (jsTrim email),
              if phone == "" then "" else jsTrim phone,
              if address == "" then "" else jsTrim address, now, none⟩ : Member) =
            ⟨newId, jsTrim name, jsToLower (jsTrim email),
             if phone == "" then "" else jsTrim phone,
             if address == "" then "" else jsTrim address, now, none⟩ := by
          show (⟨newId, jsTrim name, jsToLower (jsTrim (jsToLower (jsTrim email))),
                if phone == "" then "" else jsTrim phone,
                if address == "" then "" else jsTrim address, now, none⟩ : Member) = _
          rw [normalize_normalize]
        rw [hnm] at hadd
        simp only [] at h
        rw [hadd] at h
        simp only [Except.ok.injEq, Prod.mk.injEq] at h
        obtain ⟨hst, hm⟩ := h
        refine ⟨hids'.1, hids'.2, hreg', hchk', hm.symm, ?_, ?_, ?_, ?_⟩
        · rw [← hst, ← hm]
        · rw [← hst]
        · rw [← hst]
        · rw [← hst]

theorem createSessionApi_ok_elim {st : FallbackStorage} {sessionName newId dateStr baseUrl : String}
    {now : Nat} {st' : FallbackStorage} {s : Session}
    (h : createSessionApi st sessionName newId dateStr baseUrl now = .ok (st', s)) :
    sessionName ≠ "" ∧
    s = ⟨newId, sessionName, dateStr, baseUrl ++ "/scan/" ++ newId, 1, now⟩ ∧
    st'.sessions =
      mapSet (st.sessions.map fun p => (p.1, { p.2 with is_active := 0 })) newId s ∧
    st'.activeSessionId = some newId ∧
    st'.members = st.members ∧
    st'.attendance = st.attendance := by
  unfold createSessionApi at h
  split at h
  next hn => simp at h
  next hn =>
    have hn' : sessionName ≠ "" := by simpa [beq_iff_eq] using hn
    simp only [createSession, Except.ok.injEq, Prod.mk.injEq] at h
    obtain ⟨hst, hs⟩ := h
    refine ⟨hn', hs.symm, ?_, ?_, ?_, ?_⟩
    · rw [← hst, ← hs]
    · rw [← hst]
    · rw [← hst]
    · rw [← hst]

/-! ## Congruence and monotonicity lemmas -/

theorem getSession_congr {st st' : FallbackStorage} (h : st'.sessions = st.sessions)
    (sessionId : String) : getSession st' sessionId = getSession st sessionId := by
  unfold getSession
  rw [h]

theorem getActiveSession_congr {st st' : FallbackStorage} (hs : st'.sessions = st.sessions)
    (ha : st'.activeSessionId = st.activeSessionId) :
    getActiveSession st' = getActiveSession st := by
  unfold getActiveSession
  rw [hs, ha]

theorem countMemberAttendance_append {st st' : FallbackStorage} {k : String}
    {rec : AttendanceRecord} (h : st'.attendance = st.attendance ++ [(k, rec)])
    (memberId : String) :
    countMemberAttendance st' memberId =
      countMemberAttendance st memberId + (if rec.member_id == memberId then 1 else 0) := by
  rw [countMemberAttendance_eq_filter, countMemberAttendance_eq_filter, h,
    mapValues_append, List.filter_append]
  simp only [List.length_append, mapValues, List.map_cons, List.map_nil]
  by_cases hm : rec.member_id == memberId
  · rw [if_pos hm]
    simp [List.filter, hm]
  · rw [if_neg hm]
    have : (rec.member_id == memberId) = false := by
      cases hv : rec.member_id == memberId
      · rfl
      · exact absurd hv hm
    simp [List.filter, this]

theorem countMemberAttendance_le_applyOp (st : FallbackStorage) (op : Op)
    (memberId : String) :
    countMemberAttendance st memberId ≤ countMemberAttendance (applyOp st op) memberId := by
  have hatt : (applyOp st op).attendance = st.attendance ∨
      ∃ k rec, (applyOp st op).attendance = st.attendance ++ [(k, rec)] := by
    rcases op with ⟨n, e, p, a, i, t⟩ | ⟨mid⟩ | ⟨sn, i, d, b, t⟩ | ⟨sid, mid, rid, t⟩ | ⟨mid, rid, t⟩
    · rcases hreg : registerMember st n e p a i t with err | ⟨st2, m2⟩
      · left
        simp only [applyOp, hreg]
      · left
        simp only [applyOp, hreg]
        exact (registerMember_ok_elim hreg).2.2.2.2.2.2.2.1
    · left
      simp only [applyOp, deleteMember]
      split <;> rfl
    · rcases hcs : createSessionApi st sn i d b t with err | ⟨st2, s2⟩
      · left
        simp only [applyOp, hcs]
      · left
        simp only [applyOp, hcs]
        exact (createSessionApi_ok_elim hcs).2.2.2.2.2
    · rcases hmk : markAttendance st sid mid rid t with err | ⟨st2, r2⟩
      · left
        simp only [applyOp, hmk]
      · right
        simp only [applyOp, hmk]
        obtain ⟨_, _, _, _, _, _, _, _, _, _, _, _, hatt⟩ := markAttendance_ok_elim hmk
        exact ⟨_, _, hatt⟩
    · rcases hmk : markAttendanceManual st mid rid t with err | ⟨st2, r2⟩
      · left
        simp only [applyOp, hmk]
      · right
        simp only [applyOp, hmk]
        obtain ⟨_, _, _, _, _, _, _, _, _, hatt⟩ := markAttendanceManual_ok_elim hmk
        exact ⟨_, _, hatt⟩
  rcases hatt with hatt | ⟨k, rec, hatt⟩
  · have : countMemberAttendance (applyOp st op) memberId =
        countMemberAttendance st memberId := by
      rw [countMemberAttendance_eq_filter, countMemberAttendance_eq_filter, hatt]
    omega
  · rw [countMemberAttendance_append hatt]
    omega

theorem countMemberAttendance_le_runOps (st : FallbackStorage) (ops : List Op)
    (memberId : String) :
    countMemberAttendance st memberId ≤ countMemberAttendance (runOps st ops) memberId := by
  induction ops generalizing st with
  | nil => exact Nat.le_refl _
  | cons op rest ih =>
    calc countMemberAttendance st memberId
        ≤ countMemberAttendance (applyOp st op) memberId :=
          countMemberAttendance_le_applyOp st op memberId
      _ ≤ countMemberAttendance (runOps (applyOp st op) rest) memberId := ih _
      _ = countMemberAttendance (runOps st (op :: rest)) memberId := rfl

theorem mem_mapSet_elim {α : Type} {m : List (String × α)} {k : String} {v : α}
    {p : String × α} (h : p ∈ mapSet m k v) : p = (k, v) ∨ p ∈ m := by
  unfold mapSet at h
  split at h
  · rcases List.mem_map.mp h with ⟨q, hq, hfq⟩
    by_cases hk : (q.1 == k) = true
    · rw [if_pos hk] at hfq
      exact Or.inl hfq.symm
    · rw [if_neg hk] at hfq
      exact Or.inr (hfq ▸ hq)
  · rcases List.mem_append.mp h with hq | hq
    · exact Or.inr hq
    · exact Or.inl (List.mem_singleton.mp hq)

theorem any_key_of_get_some {α : Type} {m : List (String × α)} {k : String} {v : α}
    (h : mapGet m k = some v) : m.any (fun p => p.1 == k) = true := by
  obtain ⟨p, hp, hk, _⟩ := mapGet_some_elim h
  exact List.any_eq_true.mpr ⟨p, hp, by simp [hk]⟩

theorem mapGet_singleton_self {α : Type} (k : String) (v : α) :
    mapGet [(k, v)] k = some v := by
  simp [mapGet]

/-! ## Claim theorems -/

/-- C1: a successful `markAttendance(sessionId, memberId)` followed
immediately by a second call with identical arguments yields AlreadyMarked on
the second call, and exactly one attendance record exists for the pair
afterwards (over any well-keyed store, which every store the code builds is). -/
theorem markAttendance_twice_alreadyMarked
    (st : FallbackStorage) (sessionId memberId rid1 rid2 : String) (now1 now2 : Nat)
    (st' : FallbackStorage) (r : MarkResult)
    (hwk : WellKeyedAttendance st)
    (h : markAttendance st sessionId memberId rid1 now1 = .ok (st', r)) :
    markAttendance st' sessionId memberId rid2 now2 = .error .alreadyMarked ∧
    pairRecordCount st' sessionId memberId = 1 := by
  obtain ⟨session, member, hsid, hmid, hsess, hmem, hrec, hft, hrid, hmembers, hsessions,
    hactive, hatt⟩ := markAttendance_ok_elim h
  have hmg : mapGet st.members memberId = some member := hmem
  have hrecn : mapGet st.attendance (attendanceKey sessionId memberId) = none := hrec
  have h1 : (sessionId == "" || memberId == "") = false := by
    simp [hsid, hmid]
  have h2 : getSession st' sessionId = some session := by
    rw [getSession_congr hsessions]
    exact hsess
  have h3 : ∃ m2, mapGet st'.members memberId = some m2 := by
    rw [hmembers]
    by_cases hc : (countMemberAttendance st memberId == 0) = true
    · rw [if_pos hc]
      unfold updateMemberFirstScan
      simp only [hmg]
      by_cases hfs : member.first_scan_date = none
      · rw [if_pos hfs]
        exact ⟨_, mapGet_mapSet_self _ _ _⟩
      · rw [if_neg hfs]
        exact ⟨member, hmg⟩
    · rw [if_neg hc]
      exact ⟨member, hmg⟩
  obtain ⟨m2, hm2⟩ := h3
  have hm2' : getMember st' memberId = some m2 := hm2
  have h4 : getAttendanceRecord st' sessionId memberId =
      some ⟨rid1, sessionId, memberId, countMemberAttendance st memberId == 0,
            now1, true, none⟩ := by
    show mapGet st'.attendance (attendanceKey sessionId memberId) = _
    rw [hatt, mapGet_append_right hrecn, mapGet_singleton_self]
  constructor
  · simp only [markAttendance, h1, Bool.false_eq_true, if_false, h2, hm2', h4]
  · unfold pairRecordCount
    rw [hatt, mapValues_append, List.filter_append]
    have hnil : (mapValues st.attendance).filter
        (fun record => record.session_id == sessionId && record.member_id == memberId) = [] := by
      rw [List.filter_eq_nil_iff]
      intro a ha hmatch
      rcases List.mem_map.mp ha with ⟨p, hp, hpa⟩
      have hfields : a.session_id = sessionId ∧ a.member_id = memberId := by
        simpa [Bool.and_eq_true, beq_iff_eq] using hmatch
      have hkeyp : p.1 = attendanceKey sessionId memberId := by
        rw [hwk p hp, hpa, hfields.1, hfields.2]
      have := mapGet_eq_none_iff.mp hrecn p hp
      exact this hkeyp
    rw [hnil]
    simp [mapValues]

/-- C1 witness: the concrete run on `exampleBase`. -/
theorem markAttendance_twice_alreadyMarked_witness :
    markAttendance exampleMarked "s1" "m1" "r2" 3 = .error .alreadyMarked ∧
    pairRecordCount exampleMarked "s1" "m1" = 1 :=
  markAttendance_twice_alreadyMarked exampleBase "s1" "m1" "r1" "r2" 2 3 exampleMarked
    ⟨"Welcome Ada! First time attendance recorded.", true, "r1"⟩
    (by intro p hp; simp [exampleBase] at hp) (by rfl)

/-- C2: immediately after a successful `createSession`, the new session is
the unique session with the active flag set, `getActiveSession` returns it,
and no other session is active (at most one active session). -/
theorem createSession_unique_active
    (st : FallbackStorage) (sessionName newId dateStr baseUrl : String) (now : Nat)
    (st' : FallbackStorage) (s : Session)
    (h : createSessionApi st sessionName newId dateStr baseUrl now = .ok (st', s)) :
    getActiveSession st' = some s ∧
    s.id = newId ∧ s.is_active = 1 ∧
    (∀ p ∈ st'.sessions, p.2.is_active = 1 → p.2 = s) ∧
    (∀ p ∈ st'.sessions, ∀ q ∈ st'.sessions,
      p.2.is_active = 1 → q.2.is_active = 1 → p.2 = q.2) := by
  obtain ⟨hn, hs, hsessions, hactive, hmembers, hatt⟩ := createSessionApi_ok_elim h
  have hget : mapGet st'.sessions newId = some s := by
    rw [hsessions]
    exact mapGet_mapSet_self _ _ _
  have hisact : s.is_active = 1 := by
    rw [hs]
  have huniq : ∀ p ∈ st'.sessions, p.2.is_active = 1 → p.2 = s := by
    intro p hp hpact
    rw [hsessions] at hp
    rcases mem_mapSet_elim hp with rfl | hp'
    · rfl
    · rcases List.mem_map.mp hp' with ⟨q, _, hfq⟩
      rw [← hfq] at hpact
      simp at hpact
  refine ⟨?_, by rw [hs], hisact, huniq, ?_⟩
  · unfold getActiveSession
    simp only [hactive, hget, hisact]
    rfl
  · intro p hp q hq hpact hqact
    rw [huniq p hp hpact, huniq q hq hqact]

/-- C2 witness: creating a second session on `exampleBase` (which already has
the active session `"s1"`) leaves only the new session active. -/
theorem createSession_unique_active_witness :
    getActiveSession
        ⟨[("m1", adaMember)],
         [("s1", ⟨"s1", "Sunday Service", "2026-10-12", "http://h/scan/s1", 0, 1⟩),
          ("s2", ⟨"s2", "Evening Service", "2026-10-12", "http://h/scan/s2", 1, 5⟩)],
         [], some "s2"⟩ =
      some ⟨"s2", "Evening Service", "2026-10-12", "http://h/scan/s2", 1, 5⟩ ∧
    (⟨"s2", "Evening Service", "2026-10-12", "http://h/scan/s2", 1, 5⟩ : Session).id = "s2" ∧
    (⟨"s2", "Evening Service", "2026-10-12", "http://h/scan/s2", 1, 5⟩ : Session).is_active = 1 ∧
    (∀ p ∈ (⟨[("m1", adaMember)],
         [("s1", ⟨"s1", "Sunday Service", "2026-10-12", "http://h/scan/s1", 0, 1⟩),
          ("s2", ⟨"s2", "Evening Service", "2026-10-12", "http://h/scan/s2", 1, 5⟩)],
         [], some "s2"⟩ : FallbackStorage).sessions, p.2.is_active = 1 →
      p.2 = ⟨"s2", "Evening Service", "2026-10-12", "http://h/scan/s2", 1, 5⟩) ∧
    (∀ p ∈ (⟨[("m1", adaMember)],
         [("s1", ⟨"s1", "Sunday Service", "2026-10-12", "http://h/scan/s1", 0, 1⟩),
          ("s2", ⟨"s2", "Evening Service", "2026-10-12", "http://h/scan/s2", 1, 5⟩)],
         [], some "s2"⟩ : FallbackStorage).sessions,
     ∀ q ∈ (⟨[("m1", adaMember)],
         [("s1", ⟨"s1", "Sunday Service", "2026-10-12", "http://h/scan/s1", 0, 1⟩),
          ("s2", ⟨"s2", "Evening Service", "2026-10-12", "http://h/scan/s2", 1, 5⟩)],
         [], some "s2"⟩ : FallbackStorage).sessions,
      p.2.is_active = 1 → q.2.is_active = 1 → p.2 = q.2) :=
  createSession_unique_active exampleBase "Evening Service" "s2" "2026-10-12" "http://h" 5
    ⟨[("m1", adaMember)],
     [("s1", ⟨"s1", "Sunday Service", "2026-10-12", "http://h/scan/s1", 0, 1⟩),
      ("s2", ⟨"s2", "Evening Service", "2026-10-12", "http://h/scan/s2", 1, 5⟩)],
     [], some "s2"⟩
    ⟨"s2", "Evening Service", "2026-10-12", "http://h/scan/s2", 1, 5⟩
    (by rfl)

/-- C6: `markAttendance` fails with SessionNotActive when the session does
not exist or is not active, and leaves the store unchanged. -/
theorem markAttendance_sessionNotActive
    (st : FallbackStorage) (sessionId memberId newRecordId : String) (now : Nat)
    (hsid : sessionId ≠ "") (hmid : memberId ≠ "")
    (hsess : mapGet st.sessions sessionId = none ∨
      ∃ s, mapGet st.sessions sessionId = some s ∧ s.is_active ≠ 1) :
    markAttendance st sessionId memberId newRecordId now = .error .sessionNotActive ∧
    applyOp st (Op.mark sessionId memberId newRecordId now) = st := by
  have hget : getSession st sessionId = none := by
    unfold getSession
    rcases hsess with hnone | ⟨s, hsome, hact⟩
    · rw [hnone]
    · have hb : (s.is_active == 1) = false := by
        simpa using hact
      simp only [hsome, hb, Bool.false_eq_true, if_false]
  have herr : markAttendance st sessionId memberId newRecordId now =
      .error .sessionNotActive := by
    have h1 : (sessionId == "" || memberId == "") = false := by
      simp [hsid, hmid]
    simp only [markAttendance, h1, Bool.false_eq_true, if_false, hget]
  exact ⟨herr, by simp only [applyOp, herr]⟩

/-- C6 witness: marking against the unknown session id `"s9"`. -/
theorem markAttendance_sessionNotActive_witness :
    markAttendance exampleBase "s9" "m1" "r1" 2 = .error .sessionNotActive ∧
    applyOp exampleBase (Op.mark "s9" "m1" "r1" 2) = exampleBase :=
  markAttendance_sessionNotActive exampleBase "s9" "m1" "r1" 2
    (by decide) (by decide) (Or.inl (by rfl))

/-- C10: in the fallback backend two distinct (session, member) pairs whose
concatenated keys coincide share one map slot: inserting a record for the
second pair replaces the record of the first pair (the map does not grow) and
`getAttendanceRecord` answers with the same record for both pairs. -/
theorem attendance_key_collision
    (st : FallbackStorage) (r1 r2 : AttendanceRecord)
    (hkey : attendanceKey r1.session_id r1.member_id =
      attendanceKey r2.session_id r2.member_id)
    (_hne : ¬(r1.session_id = r2.session_id ∧ r1.member_id = r2.member_id)) :
    getAttendanceRecord (addAttendanceRecord (addAttendanceRecord st r1).1 r2).1
        r1.session_id r1.member_id = some r2 ∧
    getAttendanceRecord (addAttendanceRecord (addAttendanceRecord st r1).1 r2).1
        r2.session_id r2.member_id = some r2 ∧
    ((addAttendanceRecord (addAttendanceRecord st r1).1 r2).1).attendance.length =
      ((addAttendanceRecord st r1).1).attendance.length := by
  have hget1 : mapGet ((addAttendanceRecord st r1).1).attendance
      (attendanceKey r1.session_id r1.member_id) = some r1 := by
    show mapGet (mapSet st.attendance (attendanceKey r1.session_id r1.member_id) r1) _ = _
    exact mapGet_mapSet_self _ _ _
  have hget2 : getAttendanceRecord (addAttendanceRecord (addAttendanceRecord st r1).1 r2).1
      r2.session_id r2.member_id = some r2 := by
    show mapGet (mapSet ((addAttendanceRecord st r1).1).attendance
      (attendanceKey r2.session_id r2.member_id) r2) _ = _
    exact mapGet_mapSet_self _ _ _
  refine ⟨?_, hget2, ?_⟩
  · show mapGet (mapSet ((addAttendanceRecord st r1).1).attendance
      (attendanceKey r2.session_id r2.member_id) r2)
      (attendanceKey r1.session_id r1.member_id) = some r2
    rw [hkey]
    exact mapGet_mapSet_self _ _ _
  · show (mapSet ((addAttendanceRecord st r1).1).attendance
      (attendanceKey r2.session_id r2.member_id) r2).length = _
    rw [← hkey]
    exact length_mapSet_of_any _ _ _ (any_key_of_get_some hget1)

/-- C10 witness: the distinct pairs ("a", "b-c") and ("a-b", "c") both map to
the key "a-b-c"; the second insert replaces the first record. -/
theorem attendance_key_collision_witness :
    getAttendanceRecord
        (addAttendanceRecord
          (addAttendanceRecord FallbackStorage.init ⟨"r1", "a", "b-c", false, 1, true, none⟩).1
          ⟨"r2", "a-b", "c", false, 2, true, none⟩).1 "a" "b-c" =
      some ⟨"r2", "a-b", "c", false, 2, true, none⟩ ∧
    getAttendanceRecord
        (addAttendanceRecord
          (addAttendanceRecord FallbackStorage.init ⟨"r1", "a", "b-c", false, 1, true, none⟩).1
          ⟨"r2", "a-b", "c", false, 2, true, none⟩).1 "a-b" "c" =
      some ⟨"r2", "a-b", "c", false, 2, true, none⟩ ∧
    ((addAttendanceRecord
        (addAttendanceRecord FallbackStorage.init ⟨"r1", "a", "b-c", false, 1, true, none⟩).1
        ⟨"r2", "a-b", "c", false, 2, true, none⟩).1).attendance.length =
      ((addAttendanceRecord FallbackStorage.init
          ⟨"r1", "a", "b-c", false, 1, true, none⟩).1).attendance.length :=
  attendance_key_collision FallbackStorage.init
    ⟨"r1", "a", "b-c", false, 1, true, none⟩
    ⟨"r2", "a-b", "c", false, 2, true, none⟩
    (by rfl) (by decide)

theorem countMemberAttendance_pos_of_mark {st : FallbackStorage}
    {sessionId memberId newRecordId : String} {now : Nat}
    {st' : FallbackStorage} {r : MarkResult}
    (h : markAttendance st sessionId memberId newRecordId now = .ok (st', r)) :
    1 ≤ countMemberAttendance st' memberId := by
  obtain ⟨_, _, _, _, _, _, _, _, _, _, _, _, hatt⟩ := markAttendance_ok_elim h
  rw [countMemberAttendance_append hatt]
  simp

/-- C3: the first-time flag of a record created by `markAttendance` is
computed as (prior record count for the member == 0); the created record
stores that flag; and after a successful mark, every later successful mark
for the same member — scan or manual, any session, after any further
requests — creates a record with the flag false. -/
theorem first_time_flag_semantics
    (st : FallbackStorage) (sessionId memberId newRecordId : String) (now : Nat)
    (st' : FallbackStorage) (r : MarkResult)
    (h : markAttendance st sessionId memberId newRecordId now = .ok (st', r)) :
    r.isFirstTime = (countMemberAttendance st memberId == 0) ∧
    getAttendanceRecord st' sessionId memberId =
      some ⟨newRecordId, sessionId, memberId, countMemberAttendance st memberId == 0,
            now, true, none⟩ ∧
    (∀ ops sessionId2 newRecordId2 now2 st2 r2,
      markAttendance (runOps st' ops) sessionId2 memberId newRecordId2 now2 = .ok (st2, r2) →
      r2.isFirstTime = false) ∧
    (∀ ops newRecordId2 now2 st2 r2,
      markAttendanceManual (runOps st' ops) memberId newRecordId2 now2 = .ok (st2, r2) →
      r2.isFirstTime = false) := by
  obtain ⟨session, member, hsid, hmid, hsess, hmem, hrec, hft, hrid, hmembers, hsessions,
    hactive, hatt⟩ := markAttendance_ok_elim h
  have hpos : 1 ≤ countMemberAttendance st' memberId := countMemberAttendance_pos_of_mark h
  have hlater : ∀ ops, 1 ≤ countMemberAttendance (runOps st' ops) memberId := fun ops =>
    Nat.le_trans hpos (countMemberAttendance_le_runOps st' ops memberId)
  have hbeq : ∀ ops, (countMemberAttendance (runOps st' ops) memberId == 0) = false := by
    intro ops
    have := hlater ops
    cases hv : countMemberAttendance (runOps st' ops) memberId == 0
    · rfl
    · have : countMemberAttendance (runOps st' ops) memberId = 0 := by simpa using hv
      omega
  refine ⟨hft, ?_, ?_, ?_⟩
  · show mapGet st'.attendance (attendanceKey sessionId memberId) = _
    rw [hatt, mapGet_append_right hrec, mapGet_singleton_self]
  · intro ops sessionId2 newRecordId2 now2 st2 r2 h2
    obtain ⟨_, _, _, _, _, _, _, hft2, _⟩ := markAttendance_ok_elim h2
    rw [hft2, hbeq ops]
  · intro ops newRecordId2 now2 st2 r2 h2
    obtain ⟨_, _, _, _, _, _, hft2, _⟩ := markAttendanceManual_ok_elim h2
    rw [hft2, hbeq ops]

/-- C4: a successful `registerMember` stores the trimmed lower-cased email,
and a later `registerMember` (with a name supplied) whose email normalizes to
the same string fails with EmailExists and changes nothing. -/
theorem register_email_normalized_unique
    (st : FallbackStorage) (name1 email1 phone1 address1 id1 : String) (now1 : Nat)
    (st1 : FallbackStorage) (m1 : Member)
    (name2 email2 phone2 address2 id2 : String) (now2 : Nat)
    (h : registerMember st name1 email1 phone1 address1 id1 now1 = .ok (st1, m1))
    (hname2 : name2 ≠ "")
    (hcase : jsToLower (jsTrim email2) = jsToLower (jsTrim email1)) :
    m1.email = jsToLower (jsTrim email1) ∧
    registerMember st1 name2 email2 phone2 address2 id2 now2 = .error .emailExists ∧
    applyOp st1 (Op.register name2 email2 phone2 address2 id2 now2) = st1 := by
  obtain ⟨hn1, he1, hreg1, hchk1, hm1, hmembers1, hsess1, hatt1, hact1⟩ :=
    registerMember_ok_elim h
  have hm1email : m1.email = jsToLower (jsTrim email1) := by
    rw [hm1]
  have hemail2 : email2 ≠ "" := by
    intro hz
    rw [hz] at hcase
    have : emailRegexMatch (jsToLower (jsTrim email1)) = false := by
      rw [← hcase]
      rfl
    rw [hreg1] at this
    cases this
  have hids2 : (name2 == "" || email2 == "") = false := by
    simp [hname2, hemail2]
  have hreg2 : emailRegexMatch (jsToLower (jsTrim email2)) = true := by
    rw [hcase]
    exact hreg1
  have hm1mem : m1 ∈ mapValues st1.members := by
    have hget : mapGet st1.members id1 = some m1 := by
      rw [hmembers1]
      exact mapGet_mapSet_self _ _ _
    obtain ⟨p, hp, _, hpv⟩ := mapGet_some_elim hget
    exact List.mem_map.mpr ⟨p, hp, hpv⟩
  have hchk2 : checkEmailExists st1 (jsToLower (jsTrim email2)) = true := by
    unfold checkEmailExists
    apply List.any_eq_true.mpr
    refine ⟨m1, hm1mem, ?_⟩
    rw [hm1email, jsToLower_jsToLower, normalize_normalize, hcase]
    simp
  have herr : registerMember st1 name2 email2 phone2 address2 id2 now2 =
      .error .emailExists := by
    simp only [registerMember, hids2, Bool.false_eq_true, if_false, hreg2,
      Bool.not_true, hchk2, if_true]
  exact ⟨hm1email, herr, by simp only [applyOp, herr]⟩

/-- C5: `markAttendance` never overwrites an already-set first-scan
timestamp, and it changes a member's first-scan timestamp only for the marked
member, only when the record is first-time, only from unset to the current
time. -/
theorem first_scan_set_once
    (st : FallbackStorage) (sessionId memberId newRecordId : String) (now : Nat)
    (st' : FallbackStorage) (r : MarkResult)
    (h : markAttendance st sessionId memberId newRecordId now = .ok (st', r)) :
    (∀ mid member t, getMember st mid = some member → member.first_scan_date = some t →
      ∃ member', getMember st' mid = some member' ∧ member'.first_scan_date = some t) ∧
    (∀ mid member member', getMember st mid = some member →
      getMember st' mid = some member' →
      member'.first_scan_date ≠ member.first_scan_date →
      mid = memberId ∧ r.isFirstTime = true ∧ member.first_scan_date = none ∧
      member'.first_scan_date = some now) := by
  obtain ⟨session, memberM, hsid, hmid, hsess, hmemM, hrec, hft, hrid, hmembers, hsessions,
    hactive, hatt⟩ := markAttendance_ok_elim h
  have hmgM : mapGet st.members memberId = some memberM := hmemM
  by_cases hc : (countMemberAttendance st memberId == 0) = true
  · rw [if_pos hc] at hmembers
    unfold updateMemberFirstScan at hmembers
    rw [hmgM] at hmembers
    by_cases hfs : memberM.first_scan_date = none
    · simp only [hfs, if_pos] at hmembers
      have hmembers' : st'.members =
          mapSet st.members memberId { memberM with first_scan_date := some now } := by
        simpa using hmembers
      constructor
      · intro mid member t hget hset
        by_cases hmidm : mid = memberId
        · rw [hmidm] at hget
          have hmm : member = memberM := by
            have hg2 : mapGet st.members memberId = some member := hget
            have := hg2.symm.trans hmgM
            simpa using this
          rw [hmm, hfs] at hset
          cases hset
        · refine ⟨member, ?_, hset⟩
          show mapGet st'.members mid = some member
          rw [hmembers', mapGet_mapSet_ne _ _ _ _ hmidm]
          exact hget
      · intro mid member member' hget hget' hne
        by_cases hmidm : mid = memberId
        · subst hmidm
          have hmm : member = memberM := by
            have := hget.symm.trans hmgM
            simpa using this
          have hmm' : member' = { memberM with first_scan_date := some now } := by
            have hg : mapGet st'.members mid = some member' := hget'
            rw [hmembers', mapGet_mapSet_self] at hg
            simpa using hg.symm
          exact ⟨rfl, by rw [hft, hc], by rw [hmm, hfs], by rw [hmm']⟩
        · exfalso
          have hg : mapGet st'.members mid = some member' := hget'
          rw [hmembers', mapGet_mapSet_ne _ _ _ _ hmidm] at hg
          have : member' = member := by
            have := hg.symm.trans hget
            simpa using this
          exact hne (by rw [this])
    · simp only [hfs, if_neg] at hmembers
      have hmembers' : st'.members = st.members := by simpa using hmembers
      constructor
      · intro mid member t hget hset
        refine ⟨member, ?_, hset⟩
        show mapGet st'.members mid = some member
        rw [hmembers']
        exact hget
      · intro mid member member' hget hget' hne
        exfalso
        have hg : mapGet st'.members mid = some member' := hget'
        rw [hmembers'] at hg
        have : member' = member := by
          have := hg.symm.trans hget
          simpa using this
        exact hne (by rw [this])
  · rw [if_neg hc] at hmembers
    constructor
    · intro mid member t hget hset
      refine ⟨member, ?_, hset⟩
      show mapGet st'.members mid = some member
      rw [hmembers]
      exact hget
    · intro mid member member' hget hget' hne
      exfalso
      have hg : mapGet st'.members mid = some member' := hget'
      rw [hmembers] at hg
      have : member' = member := by
        have := hg.symm.trans hget
        simpa using this
      exact hne (by rw [this])

/-- C3 witness: Ada's first mark is flagged first-time (no prior records);
marking her again in a later session yields a record flagged false. -/
theorem first_time_flag_semantics_witness :
    (⟨"Welcome Ada! First time attendance recorded.", true, "r1"⟩ : MarkResult).isFirstTime =
      (countMemberAttendance exampleBase "m1" == 0) ∧
    (⟨"Attendance marked for Ada!", false, "r2"⟩ : MarkResult).isFirstTime = false := by
  have h := first_time_flag_semantics exampleBase "s1" "m1" "r1" 2 exampleMarked
    ⟨"Welcome Ada! First time attendance recorded.", true, "r1"⟩ (by rfl)
  exact ⟨h.1, h.2.2.1 [Op.newSession "Evening Service" "s2" "2026-10-12" "http://h" 5]
    "s2" "r2" 6 exampleSecondMarked ⟨"Attendance marked for Ada!", false, "r2"⟩ (by rfl)⟩

/-- C4 witness: registering "ADA@X.COM" stores "ada@x.com"; a second
registration with "ada@x.com" fails with EmailExists and changes nothing. -/
theorem register_email_normalized_unique_witness :
    (⟨"m1", "Ada Lovelace", "ada@x.com", "", "", 0, none⟩ : Member).email =
      jsToLower (jsTrim "ADA@X.COM") ∧
    registerMember adaRegistered "Bob" "ada@x.com" "" "" "m2" 1 = .error .emailExists ∧
    applyOp adaRegistered (Op.register "Bob" "ada@x.com" "" "" "m2" 1) = adaRegistered :=
  register_email_normalized_unique FallbackStorage.init "Ada Lovelace" "ADA@X.COM" "" "" "m1" 0
    adaRegistered ⟨"m1", "Ada Lovelace", "ada@x.com", "", "", 0, none⟩
    "Bob" "ada@x.com" "" "" "m2" 1 (by rfl) (by decide) (by rfl)

/-- C5 witness: Ada's first mark sets her unset first-scan timestamp to the
scan time, for her id only and with the record flagged first-time. -/
theorem first_scan_set_once_witness :
    "m1" = "m1" ∧
    (⟨"Welcome Ada! First time attendance recorded.", true, "r1"⟩ : MarkResult).isFirstTime =
      true ∧
    adaMember.first_scan_date = none ∧
    (⟨"m1", "Ada", "ada@x.com", "", "", 0, some 2⟩ : Member).first_scan_date = some 2 :=
  (first_scan_set_once exampleBase "s1" "m1" "r1" 2 exampleMarked
    ⟨"Welcome Ada! First time attendance recorded.", true, "r1"⟩ (by rfl)).2
    "m1" adaMember ⟨"m1", "Ada", "ada@x.com", "", "", 0, some 2⟩
    (by rfl) (by rfl) (by decide)

theorem report_entry_id_resolves {st : FallbackStorage} (hwk : WellKeyedMembers st)
    {e : ReportEntry} (he : e ∈ currentAttendanceReport st) :
    ∃ member, mapGet st.members e.id = some member := by
  unfold currentAttendanceReport at he
  rcases hact : getActiveSession st with _ | s
  · rw [hact] at he
    simp at he
  · rw [hact] at he
    simp only [List.mem_mergeSort] at he
    rcases List.mem_filterMap.mp he with ⟨record, hrecmem, hf⟩
    by_cases hsid : (record.session_id == s.id) = true
    · rw [if_pos hsid] at hf
      rcases Option.map_eq_some'.mp hf with ⟨member, hmg, hproj⟩
      obtain ⟨p, hp, hpk, hpv⟩ := mapGet_some_elim hmg
      have hid : e.id = member.id := by
        rw [← hproj]
        rfl
      have hmid : member.id = record.member_id := by
        rw [← hpk, ← hpv]
        exact hwk p hp
      refine ⟨member, ?_⟩
      rw [hid, hmid]
      exact hmg
    · rw [if_neg hsid] at hf
      cases hf

/-- C7: `currentAttendanceReport` silently drops (never errors on) any
attendance record whose member id no longer resolves, in particular the
records of a member deleted after the records were created. -/
theorem report_excludes_unresolvable (st : FallbackStorage) (memberId : String)
    (hwk : WellKeyedMembers st) :
    (∀ mid, getMember st mid = none →
      ∀ e ∈ currentAttendanceReport st, e.id ≠ mid) ∧
    (∀ e ∈ currentAttendanceReport (deleteMember st memberId).1, e.id ≠ memberId) := by
  have part1 : ∀ (st0 : FallbackStorage), WellKeyedMembers st0 →
      ∀ mid, getMember st0 mid = none → ∀ e ∈ currentAttendanceReport st0, e.id ≠ mid := by
    intro st0 hwk0 mid hnone e he hid
    obtain ⟨member, hm⟩ := report_entry_id_resolves hwk0 he
    rw [hid] at hm
    have hnone' : mapGet st0.members mid = none := hnone
    rw [hnone'] at hm
    cases hm
  refine ⟨part1 st hwk, ?_⟩
  have hwk2 : WellKeyedMembers (deleteMember st memberId).1 := by
    intro p hp
    apply hwk
    revert hp
    unfold deleteMember
    split
    · intro hp
      exact mem_of_mem_mapDelete hp
    · intro hp
      exact hp
  have hnone2 : getMember (deleteMember st memberId).1 memberId = none := by
    show mapGet ((deleteMember st memberId).1).members memberId = none
    unfold deleteMember
    split
    next hys =>
      exact mapGet_mapDelete_self _ _
    next hno =>
      exact Option.not_isSome_iff_eq_none.mp hno
  exact part1 _ hwk2 memberId hnone2

/-- C7 witness: after deleting Bob, the report of `exampleTwoMembers` no
longer carries his id (his record is dropped; Ada's entry remains). -/
theorem report_excludes_unresolvable_witness :
    (⟨"m1", "Ada", "ada@x.com", "", true, 2, true, false⟩ : ReportEntry).id ≠ "m2" :=
  (report_excludes_unresolvable exampleTwoMembers "m2"
    (by
      intro p hp
      simp only [exampleTwoMembers, List.mem_cons, List.mem_singleton] at hp
      rcases hp with rfl | rfl | hF
      · rfl
      · rfl
      · cases hF)).2
    ⟨"m1", "Ada", "ada@x.com", "", true, 2, true, false⟩
    (by
      have hrep : currentAttendanceReport (deleteMember exampleTwoMembers "m2").1 =
          List.mergeSort [⟨"m1", "Ada", "ada@x.com", "", true, 2, true, false⟩]
            scanTimeDesc := rfl
      rw [hrep, List.mem_mergeSort]
      decide)

/-- C8: with no active session the report is empty; otherwise it is a
permutation of the projections of the active session's member-resolvable
records, sorted by scan time (descending). -/
theorem currentAttendanceReport_ordered (st : FallbackStorage) :
    (getActiveSession st = none → currentAttendanceReport st = []) ∧
    (∀ s, getActiveSession st = some s →
      (currentAttendanceReport st).Perm
        ((mapValues st.attendance).filterMap fun record =>
          if record.session_id == s.id then
            (mapGet st.members record.member_id).map (reportEntryOf record)
          else none) ∧
      (currentAttendanceReport st).Pairwise fun a b => b.scan_time ≤ a.scan_time) := by
  constructor
  · intro hnone
    simp only [currentAttendanceReport, hnone]
  · intro s hact
    constructor
    · simp only [currentAttendanceReport, hact]
      exact List.mergeSort_perm _ _
    · simp only [currentAttendanceReport, hact]
      have hsorted := List.sorted_mergeSort
        (fun a b c (hab : scanTimeDesc a b = true) (hbc : scanTimeDesc b c = true) => by
          simp only [scanTimeDesc, decide_eq_true_eq] at *
          omega)
        (fun a b => by
          simp only [scanTimeDesc, Bool.or_eq_true, decide_eq_true_eq]
          omega)
        ((mapValues st.attendance).filterMap fun record =>
          if record.session_id == s.id then
            (mapGet st.members record.member_id).map (reportEntryOf record)
          else none)
      exact hsorted.imp fun hab => by
        simpa [scanTimeDesc, decide_eq_true_eq] using hab

/-- C8 witness: the report of `exampleTwoMembers` (active session, Bob
scanned after Ada) is the permuted join sorted newest-first. -/
theorem currentAttendanceReport_ordered_witness :
    (currentAttendanceReport exampleTwoMembers).Perm
      ((mapValues exampleTwoMembers.attendance).filterMap fun record =>
        if record.session_id == sundaySession.id then
          (mapGet exampleTwoMembers.members record.member_id).map (reportEntryOf record)
        else none) ∧
    (currentAttendanceReport exampleTwoMembers).Pairwise
      fun a b => b.scan_time ≤ a.scan_time :=
  (currentAttendanceReport_ordered exampleTwoMembers).2 sundaySession (by rfl)

/-- C9: `sessionStatistics` counts the records of the given session, the
first-time records among them, and the size of the whole member collection —
the latter independent of which session id is asked about. -/
theorem sessionStatistics_spec (st : FallbackStorage) (sessionId : String) :
    (sessionStatistics st sessionId).total_present =
      ((mapValues st.attendance).filter fun r => r.session_id == sessionId).length ∧
    (sessionStatistics st sessionId).first_time_count =
      (((mapValues st.attendance).filter fun r => r.session_id == sessionId).filter
        fun r => r.is_first_time).length ∧
    (sessionStatistics st sessionId).total_members = (getMembers st).length ∧
    ∀ sessionId2, (sessionStatistics st sessionId2).total_members =
      (sessionStatistics st sessionId).total_members := by
  unfold sessionStatistics
  rw [foldl_pair_count_eq]
  refine ⟨by simp, ?_, by simp [getMembers, mapValues], fun sessionId2 => rfl⟩
  simp only [Nat.zero_add]
  rw [List.filter_filter]
  congr 1
  apply List.filter_congr
  intro r _
  rw [Bool.and_comm]

end AttendanceBackend
